import Mathlib

/-!
Shallow embedding of the falling-sand grid engine
(`src/Grid.ts` class `BaseGrid`, and `BaseParticle` from the particle
module) together with proofs checking the specification's claims.

JS numbers are modelled as rationals (`ℚ`).  The ambient random source
(`Math.random()`) is modelled as a stream `ℕ → ℚ` of draws together with
a counter that is threaded through every operation in the exact order
the source consumes draws.  JS sparse-array reads (`this.particles[idx]`
for `idx` past the end yields `undefined`, which is `≠ null`) are
modelled by `List.get?`: an out-of-range read is `none`, an in-range
empty cell is `some none`.

The two `for` loops of `BaseGrid.update` are written with an explicit
fuel argument because the outer loop's counter can jump upward
(`i = newIndex` when a particle relocates).  `Grid.update` invokes the
outer loop with fuel `n*n + n + 1` where `n = particles.length`: every
outer iteration strictly decreases `(i+1) + (n*n − Σ occupied indices)`
(a relocation of total displacement `Δ` raises the counter by `Δ − 1`
and raises the occupied-index sum by `Δ`), so at most `n*n + n`
iterations ever run and the fuel is never exhausted.  Likewise the inner
attempt loop runs at most `max ⌊|v.x|⌋ ⌊|v.y|⌋ + 2` times because `j`
strictly increases and every `getUpdateCount` result is bounded by
`max ⌊|v.x|⌋ ⌊|v.y|⌋ + 1` while the velocity is unchanged during the
attempts.

An event trace is recorded so that claims about how often a particle is
processed can be stated: `Event.proc i c` is emitted exactly when the
loop body applies `world.gravity` via `applyAcc` and then calls
`particle.update` on the particle of color `c` sitting at index `i`
(one `proc` event = exactly one `applyAcc` call and one `update` call),
and `Event.att i c m` is emitted for each single-step relocation
attempt (`updatePixel` call) from index `i`, `m` recording whether the
particle moved.
-/

/-- 2D vector of JS numbers (`modules/vec.ts`), modelled componentwise. -/
abbrev Vec2 := ℚ × ℚ

/-- `Math.sign` on rationals. -/
def signQ (x : ℚ) : ℚ := if 0 < x then 1 else if x < 0 then -1 else 0

/-- State of a `BaseParticle`: velocity, accumulated acceleration,
immutable color and per-axis velocity clamp, and the `modified` flag. -/
structure Particle where
  vel : Vec2
  acc : Vec2
  color : String
  maxVel : Vec2
  modified : Bool
  deriving DecidableEq, Repr

/-- The `BaseParticle` constructor: zero velocity and acceleration,
`maxVel = (0, 8)`, `modified = false`. -/
def mkParticle (c : String) : Particle :=
  { vel := (0, 0), acc := (0, 0), color := c, maxVel := (0, 8), modified := false }

/-- `BaseParticle.applyAcc`: accumulate acceleration. -/
def Particle.applyAcc (p : Particle) (a : Vec2) : Particle :=
  { p with acc := (p.acc.1 + a.1, p.acc.2 + a.2) }

/-- `BaseParticle.update(_dt)`: add the accumulated acceleration to the
velocity, clamp each axis independently (`|v| > maxVel` saturates to
`maxVel * sign v`), reset the acceleration, and set
`modified = !(vel == ZERO)`.  The elapsed-time argument is ignored,
exactly as in the source. -/
def Particle.update (p : Particle) (_dt : ℚ) : Particle :=
  let v : Vec2 := (p.vel.1 + p.acc.1, p.vel.2 + p.acc.2)
  let x : ℚ := if p.maxVel.1 < |v.1| then p.maxVel.1 * signQ v.1 else v.1
  let y : ℚ := if p.maxVel.2 < |v.2| then p.maxVel.2 * signQ v.2 else v.2
  { p with vel := (x, y), acc := (0, 0),
           modified := decide ((x, y) ≠ ((0 : ℚ), (0 : ℚ))) }

/-- `BaseParticle.resetVelocity`. -/
def Particle.resetVelocity (p : Particle) : Particle :=
  { p with vel := (0, 0) }

/-- A stream of `Math.random()` outcomes (each a value in `[0, 1)`). -/
abbrev RandSrc := ℕ → ℚ

/-- `BaseParticle.getUpdateCountVal`: `floor |v|`, plus one with
probability equal to the fractional part (one random draw `r`). -/
def getUpdateCountVal (value : ℚ) (r : ℚ) : ℤ :=
  let a : ℚ := |value|
  let floored : ℤ := ⌊a⌋
  let md : ℚ := a - (floored : ℚ)
  floored + (if r < md then 1 else 0)

/-- `BaseParticle.getUpdateCount`: the maximum of the per-axis counts
(x axis drawn first, then y), consuming two random draws.  Returns the
count together with the advanced draw counter. -/
def Particle.getUpdateCount (p : Particle) (rand : RandSrc) (k : ℕ) : ℤ × ℕ :=
  (max (getUpdateCountVal p.vel.1 (rand k)) (getUpdateCountVal p.vel.2 (rand (k + 1))),
   k + 2)

/-- State of a `BaseGrid`: dimensions, the row-major cell array, the
dirty set `modifiedParticles`, and the one-shot `shouldClear` flag. -/
structure Grid where
  width : ℕ
  height : ℕ
  particles : List (Option Particle)
  modifiedParticles : Finset ℕ
  shouldClear : Bool
  deriving DecidableEq

/-- The `BaseGrid` constructor: `width*height` empty cells, empty dirty
set, `shouldClear = true`. -/
def mkGrid (w h : ℕ) : Grid :=
  { width := w, height := h, particles := List.replicate (w * h) none,
    modifiedParticles := ∅, shouldClear := true }

/-- `BaseGrid.isEmpty`: `this.particles[idx] === null`.  True only for
an in-range cell holding no particle; an out-of-range read yields
`undefined` in JS and is therefore not empty. -/
def Grid.isEmpty (g : Grid) (idx : ℕ) : Bool :=
  match g.particles.get? idx with
  | some none => true
  | _ => false

/-- Overwrite the content of one cell (JS mutation of `particles[idx]`,
or of the particle object stored there). -/
def Grid.setCell (g : Grid) (idx : ℕ) (c : Option Particle) : Grid :=
  { g with particles := g.particles.set idx c }

/-- `BaseGrid.swapParticles`: exchange two cells and mark both dirty
(`modifiedParticles.add(idxA).add(idxB)`). -/
def Grid.swapParticles (g : Grid) (idxA idxB : ℕ) : Grid :=
  let pa := g.particles.getD idxA none
  let pb := g.particles.getD idxB none
  { g with particles := (g.particles.set idxA pb).set idxB pa,
           modifiedParticles := insert idxB (insert idxA g.modifiedParticles) }

/-- The candidate scan of `BaseGrid.updatePixel`: try each variant in
order, swap into the first empty one. -/
def Grid.tryVariants (g : Grid) (idx : ℕ) : List ℕ → ℕ × Grid
  | [] => (idx, g)
  | v :: rest =>
    if g.isEmpty v then (v, g.swapParticles idx v) else g.tryVariants idx rest

/-- `BaseGrid.updatePixel`: single-step relocation from `idx`.  An empty
source is a no-op (and consumes no randomness, matching the early
return).  Otherwise one draw decides which diagonal is tried first;
candidates are `below`, then the diagonals filtered by the column
boundary checks.  Returns the final index, the new grid, and the
advanced draw counter. -/
def Grid.updatePixel (g : Grid) (idx : ℕ) (rand : RandSrc) (k : ℕ) : ℕ × Grid × ℕ :=
  if g.isEmpty idx then (idx, g, k)
  else
    let below := idx + g.width
    let belowLeft := below - 1
    let belowRight := below + 1
    let column := idx % g.width
    let diag : List ℕ :=
      if rand k < 1/2 then
        (if 0 < column then [belowLeft] else []) ++
        (if column < g.width - 1 then [belowRight] else [])
      else
        (if column < g.width - 1 then [belowRight] else []) ++
        (if 0 < column then [belowLeft] else [])
    let t := g.tryVariants idx (below :: diag)
    (t.1, t.2, k + 1)

/-- Trace events: `proc i c` records one application of gravity via
`applyAcc` immediately followed by one `particle.update` call on the
particle of color `c` at index `i`; `att i c m` records one relocation
attempt (`updatePixel` call) for that particle, `m` = whether it moved. -/
inductive Event where
  | proc (idx : ℕ) (color : String)
  | att (idx : ℕ) (color : String) (moved : Bool)
  deriving DecidableEq, Repr

/-- `particle.resetVelocity()` performed on the particle object living
at cell `idx`. -/
def Grid.resetVelocityAt (g : Grid) (idx : ℕ) : Grid :=
  match g.particles.get? idx with
  | some (some p) => g.setCell idx (some p.resetVelocity)
  | _ => g

/-- Result of the inner attempt loop: grid, final particle index, draw
counter, trace. -/
structure LoopRes where
  grid : Grid
  pos : ℕ
  ctr : ℕ
  trace : List Event
  deriving DecidableEq

/-- The inner loop `for (let j = 0; j < particle.getUpdateCount(); j++)`
of `BaseGrid.update`: re-evaluate `getUpdateCount` (fresh randomness)
each iteration; on a move continue from the new index, on a failed
attempt call `resetVelocity` and stop.  The particle object is the cell
content at the current index. -/
def Grid.attemptLoop : ℕ → Grid → ℕ → ℕ → RandSrc → ℕ → LoopRes
  | 0, g, i, _j, _rand, k => ⟨g, i, k, []⟩
  | fuel + 1, g, i, j, rand, k =>
    match g.particles.get? i with
    | some (some p) =>
      let ck := p.getUpdateCount rand k
      if (j : ℤ) < ck.1 then
        let r := g.updatePixel i rand ck.2
        if r.1 = i then
          ⟨(r.2.1).resetVelocityAt i, i, r.2.2, [Event.att i p.color false]⟩
        else
          let rest := Grid.attemptLoop fuel r.2.1 r.1 (j + 1) rand r.2.2
          ⟨rest.grid, rest.pos, rest.ctr, Event.att i p.color true :: rest.trace⟩
      else ⟨g, i, ck.2, []⟩
    | _ => ⟨g, i, k, []⟩

/-- Sufficient fuel for the inner attempt loop of a particle with the
given (attempt-invariant) velocity. -/
def innerFuel (p : Particle) : ℕ :=
  (max ⌊|p.vel.1|⌋ ⌊|p.vel.2|⌋).toNat + 2

/-- One body execution of the outer loop of `BaseGrid.update` at index
`i`: if the cell holds a particle, apply gravity (`applyForces`), call
`particle.update`, and unless the particle is unmodified run the
relocation attempts.  Returns the final index the particle occupies
(the loop variable `i` after the body). -/
def Grid.tickStep (g : Grid) (i : ℕ) (dt : ℚ) (grav : Vec2) (rand : RandSrc) (k : ℕ) :
    LoopRes :=
  match g.particles.get? i with
  | some (some p) =>
    let p2 := (p.applyAcc grav).update dt
    let g1 := g.setCell i (some p2)
    if p2.modified then
      let r := g1.attemptLoop (innerFuel p2) i 0 rand k
      ⟨r.grid, r.pos, r.ctr, Event.proc i p.color :: r.trace⟩
    else ⟨g1, i, k, [Event.proc i p.color]⟩
  | _ => ⟨g, i, k, []⟩

/-- Result of a whole tick: grid, draw counter, trace. -/
structure TickRes where
  grid : Grid
  ctr : ℕ
  trace : List Event
  deriving DecidableEq

/-- The outer loop `for (let i = length - 1; i >= 0; i--)` of
`BaseGrid.update`.  After the body at `i` the particle may sit at a
higher index `pos` (the source reassigns `i = newIndex`), and the loop
continues at `pos - 1`. -/
def Grid.tickLoop : ℕ → Grid → ℕ → ℚ → Vec2 → RandSrc → ℕ → TickRes
  | 0, g, _i, _dt, _grav, _rand, k => ⟨g, k, []⟩
  | fuel + 1, g, i, dt, grav, rand, k =>
    let s := g.tickStep i dt grav rand k
    if s.pos = 0 then ⟨s.grid, s.ctr, s.trace⟩
    else
      let r := Grid.tickLoop fuel s.grid (s.pos - 1) dt grav rand s.ctr
      ⟨r.grid, r.ctr, s.trace ++ r.trace⟩

/-- `BaseGrid.clearAll`: set every cell to `null`, add every index to
the dirty set, drop the one-shot flag. -/
def Grid.clearAll (g : Grid) : Grid :=
  { g with particles := List.replicate g.particles.length none,
           modifiedParticles := g.modifiedParticles ∪ Finset.range g.particles.length,
           shouldClear := false }

/-- Fuel that the measure argument in the header comment shows is never
exhausted by the outer loop. -/
def outerFuel (g : Grid) : ℕ :=
  g.particles.length * g.particles.length + g.particles.length + 1

/-- `BaseGrid.update(_dt, world)`: rebuild the dirty set empty, run the
first-tick full clear if pending, then run the outer loop from index
`length - 1` (skipped entirely when the grid has no cells, as in JS
where the loop condition `i >= 0` fails immediately). -/
def Grid.update (g : Grid) (dt : ℚ) (grav : Vec2) (rand : RandSrc) (k : ℕ) : TickRes :=
  let g0 : Grid := { g with modifiedParticles := (∅ : Finset ℕ) }
  let g1 : Grid := if g0.shouldClear then g0.clearAll else g0
  if g1.particles.length = 0 then ⟨g1, k, []⟩
  else Grid.tickLoop (outerFuel g1) g1 (g1.particles.length - 1) dt grav rand k

/-- `BaseGrid.toIndex`: row-major index `y * width + x`. -/
def Grid.toIndex (g : Grid) (pos : ℕ × ℕ) : ℕ := pos.2 * g.width + pos.1

/-- `BaseGrid.setParticle`: overwrite the cell at `pos` and mark it
dirty. -/
def Grid.setParticle (g : Grid) (pos : ℕ × ℕ) (p : Particle) : Grid :=
  { g with particles := g.particles.set (g.toIndex pos) (some p),
           modifiedParticles := insert (g.toIndex pos) g.modifiedParticles }

/-- `BaseGrid.getParticle`: the occupant at `pos`, or nothing. -/
def Grid.getParticle (g : Grid) (pos : ℕ × ℕ) : Option Particle :=
  g.particles.getD (g.toIndex pos) none

/-- Number of occupied cells. -/
def occCount (g : Grid) : ℕ := g.particles.countP Option.isSome

/-! ### Scenario constants and specification-side helper definitions -/

/-- A fixed outcome of the random source (every draw `0`), used to
instantiate "there exists an outcome" statements. -/
def rand0 : RandSrc := fun _ => 0

/-- The particle of the §8 concrete scenario. -/
def pA : Particle := mkParticle "a"

/-- That particle after one gravity application and update under
gravity `(0, 1)`. -/
def pA2 : Particle :=
  { vel := (0, 1), acc := (0, 0), color := "a", maxVel := (0, 8), modified := true }

/-- §8 concrete scenario: 3×3 grid past its first tick, one particle at
index 1, everything else empty. -/
def g3 : Grid :=
  { width := 3, height := 3,
    particles := [none, some pA, none, none, none, none, none, none, none],
    modifiedParticles := ∅, shouldClear := false }

/-- `g3` with the particle's cell rewritten after gravity+update. -/
def g3b : Grid := g3.setCell 1 (some pA2)

/-- `g3b` after the relocation swap from index 1 to index 4. -/
def g3s : Grid := g3b.swapParticles 1 4

/-- Reprocessing scenario: 3×3 grid past its first tick with particles
`Q`,`P`,`R`,`S` at indices 4,5,6,7; cell 8 empty.  When `P` (at 5)
relocates straight down to 8, the outer loop counter jumps to 8 and the
already-processed cells 7 and 6 are visited again. -/
def gC1 : Grid :=
  { width := 3, height := 3,
    particles := [none, none, none, none,
      some (mkParticle "Q"), some (mkParticle "P"),
      some (mkParticle "R"), some (mkParticle "S"), none],
    modifiedParticles := ∅, shouldClear := false }

/-- A particle with velocity `(0, 5)` (reachable after several ticks of
gravity), used to refute the per-axis upper bound of C7. -/
def pC7 : Particle :=
  { vel := (0, 5), acc := (0, 0), color := "c", maxVel := (0, 8), modified := true }

/-- A 1×1 grid with a particle placed before the first-ever update. -/
def gB5 : Grid := (mkGrid 1 1).setParticle (0, 0) pA

/-- A 1×1 grid after its first-ever update (empty, past the full
clear). -/
def gA1 : Grid := ((mkGrid 1 1).update 1 (0, 0) rand0 0).grid

/-- `gA1` with a particle placed by `setParticle` between ticks. -/
def gA2 : Grid := gA1.setParticle (0, 0) (mkParticle "b")

/-- The particle-level call alphabet for C10: an arbitrary sequence of
`applyAcc`, `update`, `resetVelocity` calls. -/
inductive POp where
  | applyA (a : Vec2)
  | upd (dt : ℚ)
  | reset
  deriving Repr

/-- Execute one particle-level call. -/
def applyPOp (p : Particle) : POp → Particle
  | POp.applyA a => p.applyAcc a
  | POp.upd dt => p.update dt
  | POp.reset => p.resetVelocity

/-- Execute a sequence of particle-level calls. -/
def runOps (p : Particle) : List POp → Particle
  | [] => p
  | op :: rest => runOps (applyPOp p op) rest

/-- Iterated ticks with zero gravity (`rands n` is the random source of
tick `n`). -/
def iterUpdates (g : Grid) (dt : ℚ) (rands : ℕ → RandSrc) : ℕ → Grid
  | 0 => g
  | n + 1 => ((iterUpdates g dt rands n).update dt (0, 0) (rands n) 0).grid

/-- Every particle in the grid is at rest with no pending
acceleration. -/
def allIdle (g : Grid) : Prop :=
  ∀ i p, g.particles.get? i = some (some p) → p.vel = (0, 0) ∧ p.acc = (0, 0)

/-- The cell index an event talks about. -/
def eventIdx : Event → ℕ
  | Event.proc i _ => i
  | Event.att i _ _ => i

/-- The `proc` event a visit of cell `i` produces (nothing when the cell
is empty). -/
def procCell (g : Grid) (i : ℕ) : List Event :=
  match g.particles.get? i with
  | some (some p) => [Event.proc i p.color]
  | _ => []

/-- The `proc` events of visiting cells `i, i-1, …, 0` in that order. -/
def procList (g : Grid) : ℕ → List Event
  | 0 => procCell g 0
  | i + 1 => procCell g (i + 1) ++ procList g i

/-- A particle already carrying downward velocity `(0, 1)`. -/
def pW6 : Particle :=
  { vel := (0, 1), acc := (0, 0), color := "w", maxVel := (0, 8), modified := true }

/-- A 1×1 grid (past its first tick) whose single particle is boxed in:
every relocation candidate is outside the grid. -/
def gW6 : Grid :=
  { width := 1, height := 1, particles := [some pW6],
    modifiedParticles := ∅, shouldClear := false }

/-- A 1×1 grid (past its first tick) holding one resting particle. -/
def gZ8 : Grid :=
  { width := 1, height := 1, particles := [some (mkParticle "z")],
    modifiedParticles := ∅, shouldClear := false }

/-- An empty 1×1 grid past its first tick. -/
def gI1 : Grid :=
  { width := 1, height := 1, particles := [none],
    modifiedParticles := ∅, shouldClear := false }

/-! ### General lemmas -/

theorem finset_eq_of_sort_eq {S T : Finset ℕ}
    (h : S.sort (· ≤ ·) = T.sort (· ≤ ·)) : S = T := by
  apply Finset.val_inj.mp
  rw [← Multiset.sort_eq (· ≤ ·) S.val, ← Multiset.sort_eq (· ≤ ·) T.val]
  exact congrArg _ h

theorem signQ_mul_self (x : ℚ) : signQ x * x = |x| := by
  unfold signQ
  split_ifs with h1 h2
  · rw [one_mul, abs_of_pos h1]
  · rw [abs_of_neg h2]; ring
  · have : x = 0 := le_antisymm (not_lt.mp h1) (not_lt.mp h2)
    simp [this]

theorem abs_signQ_of_ne (x : ℚ) (hx : x ≠ 0) : |signQ x| = 1 := by
  unfold signQ
  rcases lt_trichotomy x 0 with h | h | h
  · rw [if_neg (by linarith), if_pos h]; norm_num
  · exact absurd h hx
  · rw [if_pos h]; norm_num

/-- Per-axis clamp of `BaseParticle.update`: value, bounds, and
no-sign-flip. -/
theorem clampAxis_spec (m v : ℚ) (hm : 0 ≤ m) :
    |if m < |v| then m * signQ v else v| ≤ m ∧
    (|v| ≤ m → (if m < |v| then m * signQ v else v) = v) ∧
    (m < |v| → (if m < |v| then m * signQ v else v) = m * signQ v) ∧
    0 ≤ (if m < |v| then m * signQ v else v) * v := by
  split_ifs with h
  · have hv : v ≠ 0 := by
      intro h0; rw [h0] at h; simp at h; exact absurd h (not_lt.mpr hm)
    refine ⟨?_, fun hle => absurd h (not_lt.mpr hle), fun _ => rfl, ?_⟩
    · rw [abs_mul, abs_signQ_of_ne v hv, mul_one, abs_of_nonneg hm]
    · rw [mul_assoc, signQ_mul_self]
      exact mul_nonneg hm (abs_nonneg v)
  · exact ⟨not_lt.mp h, fun _ => rfl, fun hlt => absurd hlt h, mul_self_nonneg v⟩

/-! ### C2 -/

/-- C2: `Particle.update` postcondition: the new velocity is the old
velocity plus the accumulated acceleration, each axis then independently
saturated to magnitude at most the corresponding `maxVel` axis without
flipping sign; the acceleration is reset to zero, `modified` is true iff
the resulting velocity is nonzero, and no other field changes. -/
theorem particle_update_postcondition (p : Particle) (dt : ℚ)
    (hx : 0 ≤ p.maxVel.1) (hy : 0 ≤ p.maxVel.2) :
    |(p.update dt).vel.1| ≤ p.maxVel.1 ∧ |(p.update dt).vel.2| ≤ p.maxVel.2 ∧
    (|p.vel.1 + p.acc.1| ≤ p.maxVel.1 → (p.update dt).vel.1 = p.vel.1 + p.acc.1) ∧
    (|p.vel.2 + p.acc.2| ≤ p.maxVel.2 → (p.update dt).vel.2 = p.vel.2 + p.acc.2) ∧
    (p.maxVel.1 < |p.vel.1 + p.acc.1| →
      (p.update dt).vel.1 = p.maxVel.1 * signQ (p.vel.1 + p.acc.1)) ∧
    (p.maxVel.2 < |p.vel.2 + p.acc.2| →
      (p.update dt).vel.2 = p.maxVel.2 * signQ (p.vel.2 + p.acc.2)) ∧
    0 ≤ (p.update dt).vel.1 * (p.vel.1 + p.acc.1) ∧
    0 ≤ (p.update dt).vel.2 * (p.vel.2 + p.acc.2) ∧
    (p.update dt).acc = (0, 0) ∧
    ((p.update dt).modified = true ↔ (p.update dt).vel ≠ ((0 : ℚ), (0 : ℚ))) ∧
    (p.update dt).color = p.color ∧ (p.update dt).maxVel = p.maxVel := by
  obtain ⟨cx1, cx2, cx3, cx4⟩ := clampAxis_spec p.maxVel.1 (p.vel.1 + p.acc.1) hx
  obtain ⟨cy1, cy2, cy3, cy4⟩ := clampAxis_spec p.maxVel.2 (p.vel.2 + p.acc.2) hy
  refine ⟨cx1, cy1, cx2, cy2, cx3, cy3, cx4, cy4, rfl, ?_, rfl, rfl⟩
  simp only [Particle.update, decide_eq_true_eq]

/-- C2 witness: the postcondition evaluated on a freshly constructed
particle. -/
theorem particle_update_postcondition_witness :
    (0 ≤ (mkParticle "w").maxVel.1 ∧ 0 ≤ (mkParticle "w").maxVel.2) ∧
    ((mkParticle "w").update 1).acc = (0, 0) := by
  have h := particle_update_postcondition (mkParticle "w") 1
    (by norm_num [mkParticle]) (by norm_num [mkParticle])
  exact ⟨⟨by norm_num [mkParticle], by norm_num [mkParticle]⟩,
    h.2.2.2.2.2.2.2.2.1⟩

/-! ### C7 -/

/-- C7 (amended): each per-axis count lies in
`[⌊|v|⌋, ⌊|v|⌋ + 1]`, and `getUpdateCount` — the maximum of the two
per-axis counts — is at least each axis's floor and at most
`max ⌊|v.x|⌋ ⌊|v.y|⌋ + 1`.  (The per-axis upper bound
`count ≤ ⌊|v_axis|⌋ + 1` holds per axis for the per-axis helper, not
for the maximum.) -/
theorem getUpdateCount_bounds :
    (∀ v r : ℚ, ⌊|v|⌋ ≤ getUpdateCountVal v r ∧ getUpdateCountVal v r ≤ ⌊|v|⌋ + 1) ∧
    (∀ (p : Particle) (rand : RandSrc) (k : ℕ),
      ⌊|p.vel.1|⌋ ≤ (p.getUpdateCount rand k).1 ∧
      ⌊|p.vel.2|⌋ ≤ (p.getUpdateCount rand k).1 ∧
      (p.getUpdateCount rand k).1 ≤ max ⌊|p.vel.1|⌋ ⌊|p.vel.2|⌋ + 1) := by
  have hval : ∀ v r : ℚ, ⌊|v|⌋ ≤ getUpdateCountVal v r ∧
      getUpdateCountVal v r ≤ ⌊|v|⌋ + 1 := by
    intro v r
    simp only [getUpdateCountVal]
    split_ifs <;> omega
  refine ⟨hval, fun p rand k => ?_⟩
  obtain ⟨h1l, h1u⟩ := hval p.vel.1 (rand k)
  obtain ⟨h2l, h2u⟩ := hval p.vel.2 (rand (k + 1))
  unfold Particle.getUpdateCount
  refine ⟨le_max_of_le_left h1l, le_max_of_le_right h2l, ?_⟩
  exact max_le (h1u.trans (by omega)) (h2u.trans (by omega))

/-- C7 counterexample: for velocity `(0, 5)` the returned count is `5`,
which violates the claimed per-axis bound
`getUpdateCount() ≤ ⌊|v_x|⌋ + 1 = 1` on the x axis. -/
theorem getUpdateCount_per_axis_bound_fails :
    (pC7.getUpdateCount rand0 0).1 = 5 ∧
    ¬ ((pC7.getUpdateCount rand0 0).1 ≤ ⌊|pC7.vel.1|⌋ + 1) :=
  of_decide_eq_true (by with_unfolding_all rfl)

/-! ### C10 -/

theorem runOps_append (p : Particle) (l1 l2 : List POp) :
    runOps p (l1 ++ l2) = runOps (runOps p l1) l2 := by
  induction l1 generalizing p with
  | nil => rfl
  | cons op rest ih =>
    simp only [List.cons_append, runOps]
    exact ih _

theorem maxVel_applyPOp (p : Particle) (op : POp) :
    (applyPOp p op).maxVel = p.maxVel := by
  cases op <;> rfl

theorem maxVel_runOps (p : Particle) (l : List POp) :
    (runOps p l).maxVel = p.maxVel := by
  induction l generalizing p with
  | nil => rfl
  | cons op rest ih => rw [runOps, ih, maxVel_applyPOp]

theorem update_velx_zero (p : Particle) (dt : ℚ) (h : p.maxVel.1 = 0) :
    (p.update dt).vel.1 = 0 := by
  simp only [Particle.update, h]
  split_ifs with h1
  · exact zero_mul _
  · have := abs_nonneg (p.vel.1 + p.acc.1)
    have hz : |p.vel.1 + p.acc.1| = 0 := le_antisymm (not_lt.mp h1) this
    exact abs_eq_zero.mp hz

/-- C10: a `BaseParticle` (constructed with `maxVel = (0, 8)`) has x
velocity exactly `0` immediately after every `update` call, whatever
sequence of `applyAcc` / `update` / `resetVelocity` calls preceded it:
the x axis clamp of `0` erases any accumulated horizontal velocity. -/
theorem baseParticle_never_horizontal (c : String) (pre : List POp) (dt : ℚ) :
    (runOps (mkParticle c) (pre ++ [POp.upd dt])).vel.1 = 0 := by
  rw [runOps_append]
  show ((runOps (mkParticle c) pre).update dt).vel.1 = 0
  apply update_velx_zero
  rw [maxVel_runOps]
  rfl

/-! ### C9 -/

/-- C9: `Grid.update` replaces `modifiedParticles` with a fresh empty
set before anything else — the result is independent of the incoming
dirty set, so marks added by `setParticle` between ticks never survive.
Concretely (`gA2`: a 1×1 grid past its first tick with a particle just
placed by `setParticle`): before the tick the placed cell is dirty and
occupied while it was empty on the previous tick, yet after the tick
(zero gravity, any fixed outcome) the dirty set is empty — the occupancy
change is not reported. -/
theorem update_discards_incoming_dirty :
    (∀ (g : Grid) (dt : ℚ) (grav : Vec2) (rand : RandSrc) (k : ℕ) (d : Finset ℕ),
      Grid.update { g with modifiedParticles := d } dt grav rand k =
        g.update dt grav rand k) ∧
    (0 ∈ gA2.modifiedParticles ∧
     gA1.particles.get? 0 = some none ∧
     gA2.particles.get? 0 = some (some (mkParticle "b")) ∧
     (gA2.update 1 (0, 0) rand0 0).grid.modifiedParticles = ∅ ∧
     (gA2.update 1 (0, 0) rand0 0).grid.particles.get? 0 =
       some (some (mkParticle "b"))) := by
  constructor
  · intro g dt grav rand k d
    cases g
    rfl
  · refine ⟨of_decide_eq_true (by with_unfolding_all rfl),
      by with_unfolding_all rfl, by with_unfolding_all rfl, ?_,
      by with_unfolding_all rfl⟩
    with_unfolding_all rfl

/-! ### C1 counterexample, C6 counterexample, C5 counterexample -/

/-- C1 counterexample: in `gC1` under gravity `(0, 1)` (outcome
`rand0`), particle `P` at index 5 relocates to 8, the loop counter jumps
to 8, and the already-processed particles `S` (at 7) and `R` (at 6) are
processed again: the trace contains `proc 7 "S"` twice, i.e. gravity is
applied to `S` via `applyAcc` twice and `S.update` runs twice in one
`Grid.update` call — refuting "each particle is processed at most once".
The full trace also exhibits the non-monotone processing order
`7,6,5,7,6,4`. -/
theorem grid_update_processes_particle_twice :
    (gC1.update 1 (0, 1) rand0 0).trace =
      [Event.proc 7 "S", Event.att 7 "S" false,
       Event.proc 6 "R", Event.att 6 "R" false,
       Event.proc 5 "P", Event.att 5 "P" true,
       Event.proc 7 "S", Event.att 7 "S" false,
       Event.proc 6 "R", Event.att 6 "R" false,
       Event.proc 4 "Q", Event.att 4 "Q" false] ∧
    (gC1.update 1 (0, 1) rand0 0).trace.count (Event.proc 7 "S") = 2 := by
  constructor <;> with_unfolding_all rfl

/-- C6 counterexample: in the same run, particle `S` undergoes a failed
relocation attempt (after which its velocity is reset), yet later in the
very same `Grid.update` call its cell is reprocessed and a second
relocation attempt is performed for it — refuting "performs no further
relocation attempts for it during that tick". -/
theorem failed_attempt_not_final_in_tick :
    (gC1.update 1 (0, 1) rand0 0).trace.count (Event.att 7 "S" false) = 2 := by
  with_unfolding_all rfl

/-- C5 counterexample: a particle stored via `setParticle` before the
first-ever `update` call is destroyed by the first tick's `clearAll`,
which nulls every cell — the cells array does not survive unchanged into
the per-cell iteration (the 1×1 grid ends the tick with no particle
anywhere). -/
theorem first_update_clears_cells :
    gB5.particles = [some pA] ∧
    (gB5.update 1 (0, 1) rand0 0).grid.particles = [none] := by
  constructor <;> with_unfolding_all rfl

/-! ### Lemmas about cells, `tryVariants` and `updatePixel` -/

theorem grid_isEmpty_iff (g : Grid) (v : ℕ) :
    g.isEmpty v = true ↔ g.particles.get? v = some none := by
  unfold Grid.isEmpty
  rcases h : g.particles.get? v with _ | o
  · simp
  · cases o <;> simp

theorem isEmpty_lt (g : Grid) (v : ℕ) (h : g.isEmpty v = true) :
    v < g.particles.length := by
  rw [grid_isEmpty_iff] at h
  obtain ⟨hlt, -⟩ := List.get?_eq_some.mp h
  exact hlt

theorem isEmpty_of_ge (g : Grid) (v : ℕ) (h : g.particles.length ≤ v) :
    g.isEmpty v = false := by
  have hn : g.particles.get? v = none := List.get?_eq_none.mpr h
  unfold Grid.isEmpty
  rw [hn]

theorem isEmpty_occupied (g : Grid) (i : ℕ) (p : Particle)
    (h : g.particles.get? i = some (some p)) : g.isEmpty i = false := by
  unfold Grid.isEmpty
  rw [h]

theorem tryVariants_none (g : Grid) (idx : ℕ) (vs : List ℕ)
    (h : ∀ v ∈ vs, g.isEmpty v = false) : g.tryVariants idx vs = (idx, g) := by
  induction vs with
  | nil => rfl
  | cons v rest ih =>
    have hv := h v (List.mem_cons_self v rest)
    simp only [Grid.tryVariants, hv, Bool.false_eq_true, if_false]
    exact ih fun u hu => h u (List.mem_cons_of_mem v hu)

theorem tryVariants_cases (g : Grid) (idx : ℕ) (vs : List ℕ) :
    g.tryVariants idx vs = (idx, g) ∨
    ∃ v, v ∈ vs ∧ g.isEmpty v = true ∧
      g.tryVariants idx vs = (v, g.swapParticles idx v) := by
  induction vs with
  | nil => exact Or.inl rfl
  | cons v rest ih =>
    by_cases h : g.isEmpty v
    · exact Or.inr ⟨v, List.mem_cons_self v rest, h, by
        simp only [Grid.tryVariants, h, if_true]⟩
    · have heq : g.tryVariants idx (v :: rest) = g.tryVariants idx rest := by
        simp only [Grid.tryVariants, h, Bool.false_eq_true, if_false]
      rw [heq]
      rcases ih with h1 | ⟨u, hu, he, hr⟩
      · exact Or.inl h1
      · exact Or.inr ⟨u, List.mem_cons_of_mem v hu, he, hr⟩

/-- In the occupied case `updatePixel` is `tryVariants` on the
candidate list `below :: diagonals` (for either diagonal order), with
the diagonals filtered by the column boundary checks, and the draw
counter advanced by one. -/
theorem updatePixel_shape (g : Grid) (idx : ℕ) (rand : RandSrc) (k : ℕ)
    (hEf : g.isEmpty idx = false) :
    ∃ ds : List ℕ,
      g.updatePixel idx rand k =
        ((g.tryVariants idx ((idx + g.width) :: ds)).1,
         (g.tryVariants idx ((idx + g.width) :: ds)).2, k + 1) ∧
      ∀ v ∈ ds, (v = idx + g.width - 1 ∧ 0 < idx % g.width) ∨
        (v = idx + g.width + 1 ∧ idx % g.width < g.width - 1) := by
  by_cases hc : rand k < 1/2
  · refine ⟨(if 0 < idx % g.width then [idx + g.width - 1] else []) ++
      (if idx % g.width < g.width - 1 then [idx + g.width + 1] else []), ?_, ?_⟩
    · simp only [Grid.updatePixel, hEf, Bool.false_eq_true, if_false, if_pos hc]
    · intro v hv
      by_cases h1 : 0 < idx % g.width <;> by_cases h2 : idx % g.width < g.width - 1 <;>
        simp [h1, h2] at hv <;> tauto
  · refine ⟨(if idx % g.width < g.width - 1 then [idx + g.width + 1] else []) ++
      (if 0 < idx % g.width then [idx + g.width - 1] else []), ?_, ?_⟩
    · simp only [Grid.updatePixel, hEf, Bool.false_eq_true, if_false, if_neg hc]
    · intro v hv
      by_cases h1 : 0 < idx % g.width <;> by_cases h2 : idx % g.width < g.width - 1 <;>
        simp [h1, h2] at hv <;> tauto

/-- Full case analysis of a single relocation attempt: either nothing
moves and the grid is untouched, or the particle swaps into an empty
candidate cell that is `below`, `belowLeft` (only when not in column 0)
or `belowRight` (only when not in the last column). -/
theorem updatePixel_cases (g : Grid) (idx : ℕ) (rand : RandSrc) (k : ℕ) :
    ((g.updatePixel idx rand k).1 = idx ∧ (g.updatePixel idx rand k).2.1 = g) ∨
    (∃ v, g.isEmpty v = true ∧ g.isEmpty idx = false ∧
      (v = idx + g.width ∨
       (v = idx + g.width - 1 ∧ 0 < idx % g.width) ∨
       (v = idx + g.width + 1 ∧ idx % g.width < g.width - 1)) ∧
      (g.updatePixel idx rand k).1 = v ∧
      (g.updatePixel idx rand k).2.1 = g.swapParticles idx v) := by
  by_cases hE : g.isEmpty idx
  · left
    simp [Grid.updatePixel, hE]
  · have hEf : g.isEmpty idx = false := by simpa using hE
    obtain ⟨ds, heq, hds⟩ := updatePixel_shape g idx rand k hEf
    rw [heq]
    rcases tryVariants_cases g idx ((idx + g.width) :: ds) with h1 | ⟨v, hv, he, hr⟩
    · left
      rw [h1]
      exact ⟨rfl, rfl⟩
    · right
      refine ⟨v, he, hEf, ?_, by rw [hr], by rw [hr]⟩
      rcases List.mem_cons.mp hv with rfl | hv2
      · exact Or.inl rfl
      · rcases hds v hv2 with h | h
        · exact Or.inr (Or.inl h)
        · exact Or.inr (Or.inr h)

theorem countP_set {α : Type} (l : List α) (i : ℕ) (x : α) (p : α → Bool)
    (hi : i < l.length) :
    (l.set i x).countP p + (if p l[i] then 1 else 0) =
      l.countP p + (if p x then 1 else 0) := by
  induction l generalizing i with
  | nil => simp at hi
  | cons a t ih =>
    cases i with
    | zero =>
      simp only [List.set, List.countP_cons, List.getElem_cons_zero]
      split_ifs <;> omega
    | succ n =>
      have hn : n < t.length := by simpa using hi
      have := ih n hn
      simp only [List.set, List.countP_cons, List.getElem_cons_succ]
      split_ifs at this ⊢ <;> omega

theorem occCount_swap (g : Grid) (a b : ℕ) (ha : a < g.particles.length)
    (hb : b < g.particles.length) : occCount (g.swapParticles a b) = occCount g := by
  have hda : g.particles.getD a none = g.particles[a] := List.getD_eq_getElem _ _ ha
  have hdb : g.particles.getD b none = g.particles[b] := List.getD_eq_getElem _ _ hb
  show List.countP Option.isSome
      ((g.particles.set a (g.particles.getD b none)).set b (g.particles.getD a none)) =
    List.countP Option.isSome g.particles
  rw [hda, hdb]
  by_cases hab : a = b
  · subst hab
    rw [List.set_set]
    have := countP_set g.particles a (g.particles[a]) Option.isSome ha
    omega
  · have hb1 : b < (g.particles.set a (g.particles[b])).length := by simpa using hb
    have h1 := countP_set (g.particles.set a (g.particles[b])) b (g.particles[a])
      Option.isSome hb1
    have h2 := countP_set g.particles a (g.particles[b]) Option.isSome ha
    have hgb : (g.particles.set a (g.particles[b]))[b] = g.particles[b] := by
      rw [List.getElem_set_ne (by omega)]
    rw [hgb] at h1
    split_ifs at h1 h2 ⊢ <;> omega

theorem updatePixel_stay (g : Grid) (idx : ℕ) (rand : RandSrc) (k : ℕ)
    (h : (g.updatePixel idx rand k).1 = idx) : (g.updatePixel idx rand k).2.1 = g := by
  rcases updatePixel_cases g idx rand k with ⟨_, h2⟩ | ⟨v, he, hEf, _, h1, _⟩
  · exact h2
  · rw [h] at h1
    rw [← h1] at he
    rw [he] at hEf
    exact absurd hEf (by simp)

theorem updatePixel_bottom (g : Grid) (idx : ℕ) (rand : RandSrc) (k : ℕ)
    (hlen : g.particles.length = g.width * g.height)
    (hbr : g.width * g.height ≤ idx + g.width) :
    (g.updatePixel idx rand k).1 = idx ∧ (g.updatePixel idx rand k).2.1 = g := by
  rcases updatePixel_cases g idx rand k with ⟨h1, h2⟩ | ⟨v, he, hEf, hd, h1, h2⟩
  · exact ⟨h1, h2⟩
  · exfalso
    have hvlt : v < g.particles.length := isEmpty_lt g v he
    have hbr2 : g.particles.length ≤ idx + g.width := by rw [hlen]; exact hbr
    rcases hd with rfl | ⟨rfl, hcol⟩ | ⟨rfl, hcol⟩
    · omega
    · by_cases hw : g.width = 0
      · rw [hw] at hlen hvlt
        rw [Nat.zero_mul] at hlen
        omega
      · have hn : idx + g.width = g.particles.length := by omega
        rw [hlen] at hn
        have hidx : idx = g.width * (g.height - 1) := by
          rcases hht : g.height with _ | hh
          · rw [hht, Nat.mul_zero] at hn
            omega
          · rw [hht] at hn
            have hexp : g.width * (hh + 1) = g.width * hh + g.width := by ring
            rw [hexp] at hn
            simp only [Nat.add_sub_cancel]
            exact Nat.add_right_cancel hn
        rw [hidx, Nat.mul_mod_right] at hcol
        exact absurd hcol (by omega)
    · omega

/-! ### C4 -/

/-- C4: a relocation attempt (`updatePixel`, which is how every
relocation during `Grid.update` happens) only ever moves a particle to
an in-range target that is `below`, `belowLeft` (excluded in column 0)
or `belowRight` (excluded in the last column); a source at or past the
bottom row never moves and leaves the grid untouched; and the number of
particles in the grid is preserved, so movement never destroys a
particle. -/
theorem relocation_stays_in_grid (g : Grid) (i : ℕ) (rand : RandSrc) (k : ℕ)
    (hlen : g.particles.length = g.width * g.height) :
    ((g.updatePixel i rand k).1 ≠ i →
      (g.updatePixel i rand k).1 < g.width * g.height ∧
      ((g.updatePixel i rand k).1 = i + g.width ∨
       ((g.updatePixel i rand k).1 = i + g.width - 1 ∧ 0 < i % g.width) ∨
       ((g.updatePixel i rand k).1 = i + g.width + 1 ∧ i % g.width < g.width - 1))) ∧
    (g.width * g.height ≤ i + g.width →
      (g.updatePixel i rand k).1 = i ∧ (g.updatePixel i rand k).2.1 = g) ∧
    occCount (g.updatePixel i rand k).2.1 = occCount g := by
  refine ⟨?_, updatePixel_bottom g i rand k hlen, ?_⟩
  · intro hne
    rcases updatePixel_cases g i rand k with ⟨h1, _⟩ | ⟨v, he, _, hd, h1, _⟩
    · exact absurd h1 hne
    · rw [h1]
      exact ⟨hlen ▸ isEmpty_lt g v he, hd⟩
  · rcases updatePixel_cases g i rand k with ⟨_, h2⟩ | ⟨v, he, hEf, hd, h1, h2⟩
    · rw [h2]
    · rw [h2]
      have hvlt := isEmpty_lt g v he
      apply occCount_swap
      · rcases hd with rfl | ⟨rfl, hcol⟩ | ⟨rfl, hcol⟩
        · omega
        · by_cases hw : g.width = 0
          · rw [hw] at hvlt hlen
            rw [Nat.zero_mul] at hlen
            omega
          · omega
        · omega
      · exact hvlt

/-- C4 witness: the theorem applied to the concrete 3×3 grid `gC1` at
index 7. -/
theorem relocation_stays_in_grid_witness :
    gC1.particles.length = gC1.width * gC1.height ∧
    occCount ((gC1.updatePixel 7 rand0 0).2.1) = occCount gC1 :=
  ⟨rfl, (relocation_stays_in_grid gC1 7 rand0 0 rfl).2.2⟩

/-! ### C6 -/

/-- C6 (amended): a relocation attempt on an occupied source that finds
no empty candidate returns the source index with the grid completely
unchanged (no cell changes, no dirty marks), and the attempt loop then
immediately resets the particle's velocity and discards the remaining
attempt budget of the current processing visit.  (The particle can still
receive further relocation attempts later in the same tick if its cell
is reprocessed after another particle relocates to a higher index — see
the counterexample.) -/
theorem failed_attempt_resets_velocity_and_breaks (fuel : ℕ) (g : Grid)
    (i j : ℕ) (rand : RandSrc) (k : ℕ) (p : Particle)
    (hp : g.particles.get? i = some (some p))
    (hj : (j : ℤ) < (p.getUpdateCount rand k).1)
    (hstay : (g.updatePixel i rand (k + 2)).1 = i) :
    (g.updatePixel i rand (k + 2)).2.1 = g ∧
    Grid.attemptLoop (fuel + 1) g i j rand k =
      ⟨g.resetVelocityAt i, i, k + 3, [Event.att i p.color false]⟩ := by
  have hEf := isEmpty_occupied g i p hp
  have hg := updatePixel_stay g i rand (k + 2) hstay
  refine ⟨hg, ?_⟩
  have hctr : (g.updatePixel i rand (k + 2)).2.2 = k + 3 := by
    obtain ⟨ds, heq, -⟩ := updatePixel_shape g i rand (k + 2) hEf
    rw [heq]
  have hk2 : (p.getUpdateCount rand k).2 = k + 2 := rfl
  simp only [Grid.attemptLoop]
  rw [hp]
  simp only [hk2, if_pos hj, hstay, if_pos rfl, hg, hctr, if_true]

/-- C6 witness: in a 1×1 grid every candidate of the boxed-in particle
is outside the grid, the first attempt fails, and the attempt loop
resets the velocity and stops after that single attempt. -/
theorem failed_attempt_resets_velocity_and_breaks_witness :
    (gW6.particles.get? 0 = some (some pW6) ∧
     ((0 : ℕ) : ℤ) < (pW6.getUpdateCount rand0 0).1 ∧
     (gW6.updatePixel 0 rand0 2).1 = 0) ∧
    Grid.attemptLoop 1 gW6 0 0 rand0 0 =
      ⟨gW6.resetVelocityAt 0, 0, 3, [Event.att 0 pW6.color false]⟩ := by
  have h1 : gW6.particles.get? 0 = some (some pW6) := rfl
  have h2 : ((0 : ℕ) : ℤ) < (pW6.getUpdateCount rand0 0).1 :=
    of_decide_eq_true (by with_unfolding_all rfl)
  have h3 : (gW6.updatePixel 0 rand0 2).1 = 0 := by with_unfolding_all rfl
  exact ⟨⟨h1, h2, h3⟩,
    (failed_attempt_resets_velocity_and_breaks 0 gW6 0 0 rand0 0 pW6 h1 h2 h3).2⟩

/-! ### C5 -/

theorem tickStep_not_occupied (g : Grid) (i : ℕ) (dt : ℚ) (grav : Vec2)
    (rand : RandSrc) (k : ℕ) (h : ∀ p, g.particles.get? i ≠ some (some p)) :
    g.tickStep i dt grav rand k = ⟨g, i, k, []⟩ := by
  unfold Grid.tickStep
  rcases hg : g.particles.get? i with _ | o
  · rfl
  · cases o with
    | none => rfl
    | some p => exact absurd hg (h p)

theorem tickLoop_all_empty (g : Grid)
    (hall : ∀ j p, g.particles.get? j ≠ some (some p)) :
    ∀ (fuel i : ℕ) (dt : ℚ) (grav : Vec2) (rand : RandSrc) (k : ℕ),
      Grid.tickLoop fuel g i dt grav rand k = ⟨g, k, []⟩ := by
  intro fuel
  induction fuel with
  | zero => intro i dt grav rand k; rfl
  | succ f ih =>
    intro i dt grav rand k
    unfold Grid.tickLoop
    rw [tickStep_not_occupied g i dt grav rand k (fun p => hall i p)]
    by_cases hi : i = 0 <;> simp [hi, ih]

theorem replicate_not_occupied (n j : ℕ) (p : Particle) :
    (List.replicate n (none : Option Particle)).get? j ≠ some (some p) := by
  intro h
  have hmem := List.get?_mem h
  have := List.eq_of_mem_replicate hmem
  simp at this

/-- C5 (amended): the first-ever `Grid.update` call marks every cell
index dirty — on an empty `W×H` grid `modifiedParticles` has size
exactly `W*H` — but the full clear is not purely a dirty-set effect: it
also resets every cell to empty, so the cells array after the first tick
is all-`null` whatever was stored in it before. -/
theorem first_update_marks_all_dirty_and_clears :
    (∀ (g : Grid) (dt : ℚ) (grav : Vec2) (rand : RandSrc) (k : ℕ),
      g.shouldClear = true →
      (g.update dt grav rand k).grid.particles =
        List.replicate g.particles.length none ∧
      (g.update dt grav rand k).grid.modifiedParticles =
        Finset.range g.particles.length) ∧
    (∀ (w h : ℕ) (dt : ℚ) (grav : Vec2) (rand : RandSrc) (k : ℕ),
      ((mkGrid w h).update dt grav rand k).grid.modifiedParticles.card = w * h) := by
  have hmain : ∀ (g : Grid) (dt : ℚ) (grav : Vec2) (rand : RandSrc) (k : ℕ),
      g.shouldClear = true →
      (g.update dt grav rand k).grid.particles =
        List.replicate g.particles.length none ∧
      (g.update dt grav rand k).grid.modifiedParticles =
        Finset.range g.particles.length := by
    intro g dt grav rand k hsc
    rcases g with ⟨w, h, ps, mp, sc⟩
    have hsc2 : sc = true := hsc
    subst hsc2
    simp only [Grid.update, Grid.clearAll, if_true, List.length_replicate]
    by_cases hz : ps.length = 0
    · rw [if_pos hz]
      exact ⟨rfl, Finset.empty_union _⟩
    · rw [if_neg hz,
        tickLoop_all_empty _ (fun j p => replicate_not_occupied ps.length j p)]
      exact ⟨rfl, Finset.empty_union _⟩
  refine ⟨hmain, fun w h dt grav rand k => ?_⟩
  have := (hmain (mkGrid w h) dt grav rand k rfl).2
  rw [this]
  show (Finset.range (List.replicate (w * h) (none : Option Particle)).length).card = w * h
  rw [List.length_replicate, Finset.card_range]

/-- C5 witness: the amended statement evaluated on an empty 2×3 grid. -/
theorem first_update_marks_all_dirty_and_clears_witness :
    (mkGrid 2 3).shouldClear = true ∧
    ((mkGrid 2 3).update 1 (0, 1) rand0 0).grid.modifiedParticles.card = 2 * 3 :=
  ⟨rfl, first_update_marks_all_dirty_and_clears.2 2 3 1 (0, 1) rand0 0⟩

/-! ### C8 -/

theorem resetVelocityAt_frame (g : Grid) (i c : ℕ) (h : i ≠ c) :
    (g.resetVelocityAt i).particles.get? c = g.particles.get? c ∧
    (g.resetVelocityAt i).modifiedParticles = g.modifiedParticles ∧
    (g.resetVelocityAt i).shouldClear = g.shouldClear := by
  unfold Grid.resetVelocityAt
  rcases hgi : g.particles.get? i with _ | o
  · exact ⟨rfl, rfl, rfl⟩
  · cases o with
    | none => exact ⟨rfl, rfl, rfl⟩
    | some p => exact ⟨List.get?_set_ne _ _ h, rfl, rfl⟩

/-- A relocation attempt from `i ≠ c` does not touch the occupied cell
`c`, never targets it, adds no dirty mark for it, and keeps the
`shouldClear` flag. -/
theorem updatePixel_preserves_cell (g : Grid) (i c : ℕ) (rand : RandSrc) (k : ℕ)
    (q : Particle) (hc : g.particles.get? c = some (some q)) (hic : i ≠ c) :
    (g.updatePixel i rand k).2.1.particles.get? c = some (some q) ∧
    (c ∉ g.modifiedParticles → c ∉ (g.updatePixel i rand k).2.1.modifiedParticles) ∧
    (g.updatePixel i rand k).1 ≠ c ∧
    (g.updatePixel i rand k).2.1.shouldClear = g.shouldClear := by
  rcases updatePixel_cases g i rand k with ⟨h1, h2⟩ | ⟨v, he, hEf, hd, h1, h2⟩
  · rw [h1, h2]
    exact ⟨hc, fun h => h, hic, rfl⟩
  · have hvc : v ≠ c := by
      intro hvc
      rw [grid_isEmpty_iff] at he
      rw [hvc, hc] at he
      simp at he
    rw [h1, h2]
    refine ⟨?_, ?_, hvc, rfl⟩
    · show ((g.particles.set i _).set v _).get? c = _
      rw [List.get?_set_ne _ _ (by omega), List.get?_set_ne _ _ (by omega)]
      exact hc
    · intro hcd
      show c ∉ insert v (insert i g.modifiedParticles)
      intro hmem
      rcases Finset.mem_insert.mp hmem with h | h
      · exact hvc h.symm
      · rcases Finset.mem_insert.mp h with h | h
        · exact hic h.symm
        · exact hcd h

/-- Unfolding equation of the attempt loop at an occupied index. -/
theorem attemptLoop_succ_occupied (f : ℕ) (g : Grid) (i j : ℕ) (rand : RandSrc)
    (k : ℕ) (p : Particle) (hgi : g.particles.get? i = some (some p)) :
    Grid.attemptLoop (f + 1) g i j rand k =
      if (j : ℤ) < (p.getUpdateCount rand k).1 then
        if (g.updatePixel i rand (p.getUpdateCount rand k).2).1 = i then
          ⟨(g.updatePixel i rand (p.getUpdateCount rand k).2).2.1.resetVelocityAt i, i,
            (g.updatePixel i rand (p.getUpdateCount rand k).2).2.2,
            [Event.att i p.color false]⟩
        else
          ⟨(Grid.attemptLoop f (g.updatePixel i rand (p.getUpdateCount rand k).2).2.1
              (g.updatePixel i rand (p.getUpdateCount rand k).2).1 (j + 1) rand
              (g.updatePixel i rand (p.getUpdateCount rand k).2).2.2).grid,
           (Grid.attemptLoop f (g.updatePixel i rand (p.getUpdateCount rand k).2).2.1
              (g.updatePixel i rand (p.getUpdateCount rand k).2).1 (j + 1) rand
              (g.updatePixel i rand (p.getUpdateCount rand k).2).2.2).pos,
           (Grid.attemptLoop f (g.updatePixel i rand (p.getUpdateCount rand k).2).2.1
              (g.updatePixel i rand (p.getUpdateCount rand k).2).1 (j + 1) rand
              (g.updatePixel i rand (p.getUpdateCount rand k).2).2.2).ctr,
           Event.att i p.color true ::
             (Grid.attemptLoop f (g.updatePixel i rand (p.getUpdateCount rand k).2).2.1
                (g.updatePixel i rand (p.getUpdateCount rand k).2).1 (j + 1) rand
                (g.updatePixel i rand (p.getUpdateCount rand k).2).2.2).trace⟩
      else ⟨g, i, (p.getUpdateCount rand k).2, []⟩ := by
  simp only [Grid.attemptLoop]
  rw [hgi]

theorem attemptLoop_not_occupied (f : ℕ) (g : Grid) (i j : ℕ) (rand : RandSrc)
    (k : ℕ) (hgi : ∀ p, g.particles.get? i ≠ some (some p)) :
    Grid.attemptLoop (f + 1) g i j rand k = ⟨g, i, k, []⟩ := by
  simp only [Grid.attemptLoop]

/-- Unfolding equation of the processing step at an occupied index. -/
theorem tickStep_occupied (g : Grid) (i : ℕ) (dt : ℚ) (grav : Vec2)
    (rand : RandSrc) (k : ℕ) (p : Particle)
    (hgi : g.particles.get? i = some (some p)) :
    g.tickStep i dt grav rand k =
      if ((p.applyAcc grav).update dt).modified = true then
        ⟨(Grid.attemptLoop (innerFuel ((p.applyAcc grav).update dt))
            (g.setCell i (some ((p.applyAcc grav).update dt))) i 0 rand k).grid,
         (Grid.attemptLoop (innerFuel ((p.applyAcc grav).update dt))
            (g.setCell i (some ((p.applyAcc grav).update dt))) i 0 rand k).pos,
         (Grid.attemptLoop (innerFuel ((p.applyAcc grav).update dt))
            (g.setCell i (some ((p.applyAcc grav).update dt))) i 0 rand k).ctr,
         Event.proc i p.color ::
           (Grid.attemptLoop (innerFuel ((p.applyAcc grav).update dt))
              (g.setCell i (some ((p.applyAcc grav).update dt))) i 0 rand k).trace⟩
      else ⟨g.setCell i (some ((p.applyAcc grav).update dt)), i, k,
        [Event.proc i p.color]⟩ := by
  unfold Grid.tickStep
  rw [hgi]

/-- Unfolding equation of the outer loop. -/
theorem tickLoop_succ (f : ℕ) (g : Grid) (i : ℕ) (dt : ℚ) (grav : Vec2)
    (rand : RandSrc) (k : ℕ) :
    Grid.tickLoop (f + 1) g i dt grav rand k =
      if (g.tickStep i dt grav rand k).pos = 0 then
        ⟨(g.tickStep i dt grav rand k).grid, (g.tickStep i dt grav rand k).ctr,
         (g.tickStep i dt grav rand k).trace⟩
      else
        ⟨(Grid.tickLoop f (g.tickStep i dt grav rand k).grid
            ((g.tickStep i dt grav rand k).pos - 1) dt grav rand
            (g.tickStep i dt grav rand k).ctr).grid,
         (Grid.tickLoop f (g.tickStep i dt grav rand k).grid
            ((g.tickStep i dt grav rand k).pos - 1) dt grav rand
            (g.tickStep i dt grav rand k).ctr).ctr,
         (g.tickStep i dt grav rand k).trace ++
           (Grid.tickLoop f (g.tickStep i dt grav rand k).grid
              ((g.tickStep i dt grav rand k).pos - 1) dt grav rand
              (g.tickStep i dt grav rand k).ctr).trace⟩ := by
  simp only [Grid.tickLoop]

/-- The whole attempt loop, started at `i ≠ c`, never touches the
occupied cell `c`. -/
theorem attemptLoop_preserves_cell (c : ℕ) (q : Particle) :
    ∀ (fuel : ℕ) (g : Grid) (i j : ℕ) (rand : RandSrc) (k : ℕ),
    g.particles.get? c = some (some q) → i ≠ c →
    (Grid.attemptLoop fuel g i j rand k).grid.particles.get? c = some (some q) ∧
    (c ∉ g.modifiedParticles →
      c ∉ (Grid.attemptLoop fuel g i j rand k).grid.modifiedParticles) ∧
    (Grid.attemptLoop fuel g i j rand k).grid.shouldClear = g.shouldClear := by
  intro fuel
  induction fuel with
  | zero => intro g i j rand k hc _; exact ⟨hc, fun h => h, rfl⟩
  | succ f ih =>
    intro g i j rand k hc hic
    rcases hgi : g.particles.get? i with _ | o
    · rw [attemptLoop_not_occupied f g i j rand k (fun p h => by rw [hgi] at h; cases h)]
      exact ⟨hc, fun h => h, rfl⟩
    · cases o with
      | none =>
        rw [attemptLoop_not_occupied f g i j rand k (fun p h => by
          rw [hgi] at h; cases h)]
        exact ⟨hc, fun h => h, rfl⟩
      | some p =>
        rw [attemptLoop_succ_occupied f g i j rand k p hgi]
        obtain ⟨hu1, hu2, hu3, hu4⟩ :=
          updatePixel_preserves_cell g i c rand (p.getUpdateCount rand k).2 q hc hic
        split_ifs with h1 h2
        · obtain ⟨hr1, hr2, hr3⟩ :=
            resetVelocityAt_frame (g.updatePixel i rand (p.getUpdateCount rand k).2).2.1
              i c hic
          refine ⟨by rw [hr1]; exact hu1, fun hd => by rw [hr2]; exact hu2 hd, ?_⟩
          rw [hr3, hu4]
        · obtain ⟨hi1, hi2, hi3⟩ := ih
            (g.updatePixel i rand (p.getUpdateCount rand k).2).2.1
            (g.updatePixel i rand (p.getUpdateCount rand k).2).1 (j + 1) rand
            (g.updatePixel i rand (p.getUpdateCount rand k).2).2.2 hu1 hu3
          exact ⟨hi1, fun hd => hi2 (hu2 hd), by rw [hi3, hu4]⟩
        · exact ⟨hc, fun h => h, rfl⟩

/-- A processing visit of an index `i ≠ c` never touches the occupied
cell `c`. -/
theorem tickStep_preserves_cell (g : Grid) (i c : ℕ) (dt : ℚ) (grav : Vec2)
    (rand : RandSrc) (k : ℕ) (q : Particle)
    (hc : g.particles.get? c = some (some q)) (hic : i ≠ c) :
    (g.tickStep i dt grav rand k).grid.particles.get? c = some (some q) ∧
    (c ∉ g.modifiedParticles →
      c ∉ (g.tickStep i dt grav rand k).grid.modifiedParticles) ∧
    (g.tickStep i dt grav rand k).grid.shouldClear = g.shouldClear := by
  rcases hgi : g.particles.get? i with _ | o
  · rw [tickStep_not_occupied g i dt grav rand k (fun p h => by rw [hgi] at h; cases h)]
    exact ⟨hc, fun h => h, rfl⟩
  · cases o with
    | none =>
      rw [tickStep_not_occupied g i dt grav rand k (fun p h => by
        rw [hgi] at h; cases h)]
      exact ⟨hc, fun h => h, rfl⟩
    | some p =>
      rw [tickStep_occupied g i dt grav rand k p hgi]
      have hc1 : (g.setCell i (some ((p.applyAcc grav).update dt))).particles.get? c
          = some (some q) := by
        show (g.particles.set i _).get? c = _
        rw [List.get?_set_ne _ _ (by omega)]
        exact hc
      split_ifs with hmod
      · obtain ⟨ha1, ha2, ha3⟩ := attemptLoop_preserves_cell c q
          (innerFuel ((p.applyAcc grav).update dt))
          (g.setCell i (some ((p.applyAcc grav).update dt))) i 0 rand k hc1 hic
        exact ⟨ha1, fun hd => ha2 hd, ha3⟩
      · exact ⟨hc1, fun h => h, rfl⟩

theorem idle_applyAcc_update (q : Particle) (dt : ℚ) (hv : q.vel = (0, 0))
    (ha : q.acc = (0, 0)) :
    (q.applyAcc ((0 : ℚ), (0 : ℚ))).update dt =
      { q with vel := (0, 0), acc := (0, 0), modified := false } := by
  simp [Particle.applyAcc, Particle.update, ha, hv, signQ]

/-- A visit of the idle particle's own cell under zero gravity only
rewrites the cell with the unmodified particle (gravity applied once,
update called once, no relocation attempts, no dirty marks). -/
theorem tickStep_at_idle (g : Grid) (c : ℕ) (dt : ℚ) (rand : RandSrc) (k : ℕ)
    (q : Particle) (hc : g.particles.get? c = some (some q))
    (hv : q.vel = (0, 0)) (ha : q.acc = (0, 0)) :
    g.tickStep c dt (0, 0) rand k =
      ⟨g.setCell c (some { q with vel := (0, 0), acc := (0, 0), modified := false }),
       c, k, [Event.proc c q.color]⟩ := by
  rw [tickStep_occupied g c dt (0, 0) rand k q hc, idle_applyAcc_update q dt hv ha]
  simp

theorem tickLoop_preserves_idle (c : ℕ) (col : String) (mv : Vec2) (dt : ℚ)
    (rand : RandSrc) :
    ∀ (fuel : ℕ) (g : Grid) (i k : ℕ),
    (∃ q : Particle, g.particles.get? c = some (some q) ∧ q.vel = (0, 0) ∧
      q.acc = (0, 0) ∧ q.color = col ∧ q.maxVel = mv) →
    (∃ q : Particle,
      (Grid.tickLoop fuel g i dt (0, 0) rand k).grid.particles.get? c =
        some (some q) ∧
      q.vel = (0, 0) ∧ q.acc = (0, 0) ∧ q.color = col ∧ q.maxVel = mv) ∧
    (c ∉ g.modifiedParticles →
      c ∉ (Grid.tickLoop fuel g i dt (0, 0) rand k).grid.modifiedParticles) ∧
    (Grid.tickLoop fuel g i dt (0, 0) rand k).grid.shouldClear = g.shouldClear := by
  intro fuel
  induction fuel with
  | zero => intro g i k hq; exact ⟨hq, fun h => h, rfl⟩
  | succ f ih =>
    intro g i k hq
    obtain ⟨q, hc, hv, ha, hcol, hmv⟩ := hq
    rw [tickLoop_succ]
    by_cases hic : i = c
    · subst hic
      rw [tickStep_at_idle g i dt rand k q hc hv ha]
      obtain ⟨hlt, -⟩ := List.get?_eq_some.mp hc
      have hcell : (g.setCell i
          (some { q with vel := (0, 0), acc := (0, 0), modified := false
            })).particles.get? i =
          some (some { q with vel := (0, 0), acc := (0, 0), modified := false }) := by
        show (g.particles.set i _).get? i = _
        rw [List.get?_set_eq_of_lt _ hlt]
      split_ifs with h0
      · exact ⟨⟨_, hcell, rfl, rfl, hcol, hmv⟩, fun h => h, rfl⟩
      · obtain ⟨hi1, hi2, hi3⟩ := ih
          (g.setCell i (some { q with vel := (0, 0), acc := (0, 0), modified := false }))
          (i - 1) k ⟨_, hcell, rfl, rfl, hcol, hmv⟩
        exact ⟨hi1, fun hd => hi2 hd, hi3⟩
    · obtain ⟨hs1, hs2, hs3⟩ := tickStep_preserves_cell g i c dt (0, 0) rand k q hc hic
      split_ifs with h0
      · exact ⟨⟨q, hs1, hv, ha, hcol, hmv⟩, hs2, hs3⟩
      · obtain ⟨hi1, hi2, hi3⟩ := ih (g.tickStep i dt (0, 0) rand k).grid
          ((g.tickStep i dt (0, 0) rand k).pos - 1)
          (g.tickStep i dt (0, 0) rand k).ctr ⟨q, hs1, hv, ha, hcol, hmv⟩
        exact ⟨hi1, fun hd => hi2 (hs2 hd), hi3.trans hs3⟩

theorem update_preserves_idle (g : Grid) (c : ℕ) (q : Particle) (dt : ℚ)
    (rand : RandSrc) (k : ℕ) (hsc : g.shouldClear = false)
    (hc : g.particles.get? c = some (some q))
    (hv : q.vel = (0, 0)) (ha : q.acc = (0, 0)) :
    (∃ r : Particle,
      (g.update dt (0, 0) rand k).grid.particles.get? c = some (some r) ∧
      r.vel = (0, 0) ∧ r.acc = (0, 0) ∧ r.color = q.color ∧ r.maxVel = q.maxVel) ∧
    c ∉ (g.update dt (0, 0) rand k).grid.modifiedParticles ∧
    (g.update dt (0, 0) rand k).grid.shouldClear = false := by
  obtain ⟨hlt, -⟩ := List.get?_eq_some.mp hc
  have hz : ¬ g.particles.length = 0 := by omega
  have hg0 : g.update dt (0, 0) rand k =
      Grid.tickLoop (outerFuel { g with modifiedParticles := (∅ : Finset ℕ) })
        { g with modifiedParticles := (∅ : Finset ℕ) }
        (g.particles.length - 1) dt (0, 0) rand k := by
    simp only [Grid.update, hsc, Bool.false_eq_true, if_false]
    rw [if_neg hz]
  rw [hg0]
  obtain ⟨h1, h2, h3⟩ := tickLoop_preserves_idle c q.color q.maxVel dt rand
    (outerFuel { g with modifiedParticles := (∅ : Finset ℕ) })
    { g with modifiedParticles := (∅ : Finset ℕ) }
    (g.particles.length - 1) k ⟨q, hc, hv, ha, rfl, rfl⟩
  refine ⟨h1, h2 (Finset.not_mem_empty c), ?_⟩
  have hsc0 : ({ g with modifiedParticles := (∅ : Finset ℕ) } : Grid).shouldClear
      = false := hsc
  exact h3.trans hsc0

/-- C8: with zero gravity, a particle at rest (zero velocity, no
pending acceleration) in a grid past its first tick never has its cell
added to the dirty set on any later tick, and it stays in its cell with
zero velocity (same color and clamp) across every number of ticks,
whatever the random outcomes. -/
theorem zero_gravity_idle_particle_stays_clean (g : Grid) (c : ℕ) (p : Particle)
    (dt : ℚ) (rands : ℕ → RandSrc) (n : ℕ) (hsc : g.shouldClear = false)
    (hc : g.particles.get? c = some (some p)) (hv : p.vel = (0, 0))
    (ha : p.acc = (0, 0)) :
    (∃ q : Particle,
      (iterUpdates g dt rands n).particles.get? c = some (some q) ∧
      q.vel = (0, 0) ∧ q.acc = (0, 0) ∧ q.color = p.color ∧ q.maxVel = p.maxVel) ∧
    (0 < n → c ∉ (iterUpdates g dt rands n).modifiedParticles) ∧
    (iterUpdates g dt rands n).shouldClear = false := by
  induction n with
  | zero =>
    exact ⟨⟨p, hc, hv, ha, rfl, rfl⟩, fun h0 => absurd h0 (lt_irrefl 0), hsc⟩
  | succ m ih =>
    obtain ⟨⟨q, hq1, hq2, hq3, hq4, hq5⟩, -, hflag⟩ := ih
    obtain ⟨⟨r, hr1, hr2, hr3, hr4, hr5⟩, hdirty, hflag2⟩ :=
      update_preserves_idle (iterUpdates g dt rands m) c q dt (rands m) 0
        hflag hq1 hq2 hq3
    exact ⟨⟨r, hr1, hr2, hr3, hr4.trans hq4, hr5.trans hq5⟩, fun _ => hdirty, hflag2⟩

/-- C8 witness: a single resting particle in a 1×1 grid over one tick. -/
theorem zero_gravity_idle_particle_stays_clean_witness :
    (gZ8.shouldClear = false ∧ gZ8.particles.get? 0 = some (some (mkParticle "z")) ∧
     (mkParticle "z").vel = (0, 0) ∧ (mkParticle "z").acc = (0, 0)) ∧
    (0 < 1 → 0 ∉ (iterUpdates gZ8 1 (fun _ => rand0) 1).modifiedParticles) :=
  ⟨⟨rfl, rfl, rfl, rfl⟩,
    (zero_gravity_idle_particle_stays_clean gZ8 0 (mkParticle "z") 1
      (fun _ => rand0) 1 rfl rfl rfl rfl).2.1⟩

/-! ### C1 -/

theorem update_eq_tickLoop (g : Grid) (dt : ℚ) (grav : Vec2) (rand : RandSrc)
    (k : ℕ) (hsc : g.shouldClear = false) (hz : ¬ g.particles.length = 0) :
    g.update dt grav rand k =
      Grid.tickLoop (outerFuel { g with modifiedParticles := (∅ : Finset ℕ) })
        { g with modifiedParticles := (∅ : Finset ℕ) }
        (g.particles.length - 1) dt grav rand k := by
  simp only [Grid.update, hsc, Bool.false_eq_true, if_false]
  rw [if_neg hz]

theorem procCell_congr (g g2 : Grid) (i : ℕ)
    (h : g2.particles.get? i = g.particles.get? i) : procCell g2 i = procCell g i := by
  unfold procCell
  rw [h]

theorem procList_congr (g g2 : Grid) : ∀ m : ℕ,
    (∀ j, j ≤ m → g2.particles.get? j = g.particles.get? j) →
    procList g2 m = procList g m := by
  intro m
  induction m with
  | zero =>
    intro h
    exact procCell_congr g g2 0 (h 0 le_rfl)
  | succ mm ih =>
    intro h
    show procCell g2 (mm + 1) ++ procList g2 mm = procCell g (mm + 1) ++ procList g mm
    rw [procCell_congr g g2 (mm + 1) (h (mm + 1) le_rfl),
      ih (fun j hj => h j (le_trans hj (Nat.le_succ mm)))]

/-- A processing visit in an all-idle grid under zero gravity produces
exactly the `proc` event of its cell, leaves all other cells untouched,
keeps the grid idle, and adds no dirty mark. -/
theorem tickStep_idle_allcases (g : Grid) (i : ℕ) (dt : ℚ) (rand : RandSrc)
    (k : ℕ) (hidle : allIdle g) :
    ∃ g2 : Grid, g.tickStep i dt (0, 0) rand k = ⟨g2, i, k, procCell g i⟩ ∧
      (∀ j, j ≠ i → g2.particles.get? j = g.particles.get? j) ∧
      allIdle g2 ∧ g2.modifiedParticles = g.modifiedParticles := by
  rcases hgi : g.particles.get? i with _ | o
  · refine ⟨g, ?_, fun j _ => rfl, hidle, rfl⟩
    rw [tickStep_not_occupied g i dt (0, 0) rand k (fun p h => by rw [hgi] at h; cases h)]
    unfold procCell
    rw [hgi]
  · cases o with
    | none =>
      refine ⟨g, ?_, fun j _ => rfl, hidle, rfl⟩
      rw [tickStep_not_occupied g i dt (0, 0) rand k (fun p h => by
        rw [hgi] at h; cases h)]
      unfold procCell
      rw [hgi]
    | some p =>
      obtain ⟨hv, ha⟩ := hidle i p hgi
      obtain ⟨hlt, -⟩ := List.get?_eq_some.mp hgi
      refine ⟨g.setCell i
        (some { p with vel := (0, 0), acc := (0, 0), modified := false }),
        ?_, ?_, ?_, rfl⟩
      · rw [tickStep_at_idle g i dt rand k p hgi hv ha]
        unfold procCell
        rw [hgi]
      · intro j hj
        exact List.get?_set_ne _ _ (by omega)
      · intro j q hq
        by_cases hji : j = i
        · subst hji
          have hset :
              (g.setCell j
                (some { p with vel := (0, 0), acc := (0, 0), modified := false
                  })).particles.get? j =
              some (some { p with vel := (0, 0), acc := (0, 0), modified := false
                }) := by
            show (g.particles.set j _).get? j = _
            rw [List.get?_set_eq_of_lt _ hlt]
          rw [hset] at hq
          cases hq
          exact ⟨rfl, rfl⟩
        · have hne :
              (g.setCell i
                (some { p with vel := (0, 0), acc := (0, 0), modified := false
                  })).particles.get? j = g.particles.get? j := by
            show (g.particles.set i _).get? j = _
            exact List.get?_set_ne _ _ (show i ≠ j by omega)
          rw [hne] at hq
          exact hidle j q hq

theorem tickLoop_idle_trace (dt : ℚ) (rand : RandSrc) :
    ∀ (fuel : ℕ) (g : Grid) (i k : ℕ), allIdle g → i + 1 ≤ fuel →
    (Grid.tickLoop fuel g i dt (0, 0) rand k).trace = procList g i := by
  intro fuel
  induction fuel with
  | zero => intro g i k _ hf; omega
  | succ f ih =>
    intro g i k hidle hf
    obtain ⟨m, hm⟩ : ∃ m, i = m ∨ i = m + 1 := ⟨i - 1, by omega⟩
    rw [tickLoop_succ]
    obtain ⟨g2, hstep, hframe, hidle2, -⟩ := tickStep_idle_allcases g i dt rand k hidle
    rw [hstep]
    split_ifs with h0
    · have h0n : i = 0 := h0
      subst h0n
      rfl
    · have h0n : ¬ i = 0 := fun hh => h0 hh
      obtain ⟨mm, rfl⟩ : ∃ mm, i = mm + 1 := ⟨i - 1, by omega⟩
      show procCell g (mm + 1) ++
        (Grid.tickLoop f g2 (mm + 1 - 1) dt (0, 0) rand k).trace = procList g (mm + 1)
      rw [Nat.add_sub_cancel]
      rw [ih g2 mm k hidle2 (by omega)]
      rw [procList_congr g g2 mm (fun j hj => hframe j (by omega))]
      rfl

theorem mem_procCell (g : Grid) (i : ℕ) (e : Event) (he : e ∈ procCell g i) :
    ∃ p : Particle, g.particles.get? i = some (some p) ∧ e = Event.proc i p.color := by
  unfold procCell at he
  rcases hg : g.particles.get? i with _ | o
  · rw [hg] at he
    cases he
  · cases o with
    | none => rw [hg] at he; cases he
    | some p =>
      rw [hg] at he
      rw [List.mem_singleton] at he
      exact ⟨p, rfl, he⟩

theorem procList_idx_le (g : Grid) : ∀ (m : ℕ) (e : Event),
    e ∈ procList g m → eventIdx e ≤ m := by
  intro m
  induction m with
  | zero =>
    intro e he
    obtain ⟨p, -, rfl⟩ := mem_procCell g 0 e he
    rfl
  | succ mm ih =>
    intro e he
    have he2 : e ∈ procCell g (mm + 1) ++ procList g mm := he
    rcases List.mem_append.mp he2 with he3 | he3
    · obtain ⟨p, -, rfl⟩ := mem_procCell g (mm + 1) e he3
      rfl
    · exact le_trans (ih e he3) (Nat.le_succ mm)

theorem procList_pairwise (g : Grid) (m : ℕ) :
    List.Pairwise (fun a b => eventIdx b < eventIdx a) (procList g m) := by
  induction m with
  | zero =>
    show List.Pairwise _ (procCell g 0)
    unfold procCell
    rcases g.particles.get? 0 with _ | o
    · exact List.Pairwise.nil
    · cases o with
      | none => exact List.Pairwise.nil
      | some p => exact List.pairwise_singleton _ _
  | succ mm ih =>
    show List.Pairwise _ (procCell g (mm + 1) ++ procList g mm)
    rw [List.pairwise_append]
    refine ⟨?_, ih, ?_⟩
    · unfold procCell
      rcases g.particles.get? (mm + 1) with _ | o
      · exact List.Pairwise.nil
      · cases o with
        | none => exact List.Pairwise.nil
        | some p => exact List.pairwise_singleton _ _
    · intro a ha b hb
      have hb2 := procList_idx_le g mm b hb
      obtain ⟨p, -, rfl⟩ := mem_procCell g (mm + 1) a ha
      show eventIdx b < mm + 1
      omega

theorem procList_count_le_one (g : Grid) (m : ℕ) (e : Event) :
    (procList g m).count e ≤ 1 := by
  have hp := procList_pairwise g m
  have hnd : (procList g m).Nodup := by
    refine hp.imp ?_
    intro a b hlt hab
    subst hab
    exact lt_irrefl _ hlt
  exact List.nodup_iff_count_le_one.mp hnd e

/-- C1 (amended): each processing visit applies gravity exactly once
via `applyAcc` and calls `particle.update` exactly once (one `proc`
event per visit), and in any tick in which no particle relocates — here,
every particle idle under zero gravity, past the first tick — the
occupied cells are processed exactly once each, in strictly descending
index order.  (When a relocation raises the loop index this fails; see
the counterexample.) -/
theorem idle_grid_processes_each_cell_once (g : Grid) (dt : ℚ) (rand : RandSrc)
    (k : ℕ) (hsc : g.shouldClear = false) (hlen : 0 < g.particles.length)
    (hidle : allIdle g) :
    (g.update dt (0, 0) rand k).trace = procList g (g.particles.length - 1) ∧
    List.Pairwise (fun a b => eventIdx b < eventIdx a)
      ((g.update dt (0, 0) rand k).trace) ∧
    (∀ e : Event, ((g.update dt (0, 0) rand k).trace).count e ≤ 1) := by
  rw [update_eq_tickLoop g dt (0, 0) rand k hsc (by omega)]
  have hidle0 : allIdle ({ g with modifiedParticles := (∅ : Finset ℕ) } : Grid) :=
    hidle
  have hfuel : (g.particles.length - 1) + 1 ≤
      outerFuel { g with modifiedParticles := (∅ : Finset ℕ) } := by
    show (g.particles.length - 1) + 1 ≤
      g.particles.length * g.particles.length + g.particles.length + 1
    have : g.particles.length ≤
        g.particles.length * g.particles.length + g.particles.length :=
      Nat.le_add_left _ _
    omega
  have htr := tickLoop_idle_trace dt rand
    (outerFuel { g with modifiedParticles := (∅ : Finset ℕ) })
    { g with modifiedParticles := (∅ : Finset ℕ) }
    (g.particles.length - 1) k hidle0 hfuel
  have htr2 : (Grid.tickLoop (outerFuel { g with modifiedParticles := (∅ : Finset ℕ) })
      { g with modifiedParticles := (∅ : Finset ℕ) }
      (g.particles.length - 1) dt (0, 0) rand k).trace =
      procList g (g.particles.length - 1) :=
    htr.trans (procList_congr g { g with modifiedParticles := (∅ : Finset ℕ) }
      (g.particles.length - 1) (fun j _ => rfl))
  refine ⟨htr2, ?_, ?_⟩
  · rw [htr2]
    exact procList_pairwise g (g.particles.length - 1)
  · intro e
    rw [htr2]
    exact procList_count_le_one g (g.particles.length - 1) e

/-- C1 amended-claim witness: the empty 1×1 post-first-tick grid. -/
theorem idle_grid_processes_each_cell_once_witness :
    (gI1.shouldClear = false ∧ 0 < gI1.particles.length) ∧
    (gI1.update 1 (0, 0) rand0 0).trace = procList gI1 (gI1.particles.length - 1) := by
  have hidle : allIdle gI1 := by
    intro i p h
    match i, h with
    | 0, h => cases h
  exact ⟨⟨rfl, by norm_num [gI1]⟩,
    (idle_grid_processes_each_cell_once gI1 1 rand0 0 rfl (by norm_num [gI1]) hidle).1⟩

/-! ### C3 -/

theorem getUpdateCountVal_zero (r : ℚ) (h0 : 0 ≤ r) : getUpdateCountVal 0 r = 0 := by
  simp only [getUpdateCountVal]
  norm_num
  exact h0

theorem getUpdateCountVal_one (r : ℚ) (h0 : 0 ≤ r) : getUpdateCountVal 1 r = 1 := by
  simp only [getUpdateCountVal]
  norm_num
  exact h0

theorem pA2_count (rand : RandSrc) (hr : ∀ j, 0 ≤ rand j) (m : ℕ) :
    pA2.getUpdateCount rand m = (1, m + 2) := by
  show (max (getUpdateCountVal 0 (rand m)) (getUpdateCountVal 1 (rand (m + 1))),
    m + 2) = (1, m + 2)
  rw [getUpdateCountVal_zero _ (hr m), getUpdateCountVal_one _ (hr (m + 1))]
  norm_num

theorem g3b_updatePixel (rand : RandSrc) (m : ℕ) :
    g3b.updatePixel 1 rand m = (4, g3s, m + 1) := by
  have hemp : g3b.isEmpty 1 = false := rfl
  simp only [Grid.updatePixel, hemp, Bool.false_eq_true, if_false]
  by_cases hc : rand m < 1/2
  · rw [if_pos hc]
    with_unfolding_all rfl
  · rw [if_neg hc]
    with_unfolding_all rfl

theorem g3_attempt (rand : RandSrc) (hr : ∀ j, 0 ≤ rand j) (m : ℕ) :
    Grid.attemptLoop 3 g3b 1 0 rand m = ⟨g3s, 4, m + 5, [Event.att 1 "a" true]⟩ := by
  rw [show (3 : ℕ) = 2 + 1 from rfl, attemptLoop_succ_occupied 2 g3b 1 0 rand m pA2 rfl]
  rw [pA2_count rand hr m]
  norm_num
  rw [g3b_updatePixel rand (m + 2)]
  norm_num
  rw [show (2 : ℕ) = 1 + 1 from rfl, attemptLoop_succ_occupied 1 g3s 4 1 rand (m + 3) pA2 rfl]
  rw [pA2_count rand hr (m + 3)]
  norm_num
  rfl

theorem g3_tickStep (dt : ℚ) (rand : RandSrc) (hr : ∀ j, 0 ≤ rand j) (m : ℕ) :
    g3.tickStep 1 dt (0, 1) rand m =
      ⟨g3s, 4, m + 5, [Event.proc 1 "a", Event.att 1 "a" true]⟩ := by
  rw [tickStep_occupied g3 1 dt (0, 1) rand m pA rfl]
  have hpA2 : (pA.applyAcc ((0 : ℚ), (1 : ℚ))).update dt = pA2 := by
    with_unfolding_all rfl
  rw [hpA2]
  have hinner : innerFuel pA2 = 3 := by with_unfolding_all rfl
  have hmod : pA2.modified = true := rfl
  rw [hmod, if_pos rfl, hinner]
  have hcell : g3.setCell 1 (some pA2) = g3b := rfl
  rw [hcell, g3_attempt rand hr m]
  rfl

theorem tickLoop_skip_empty (f : ℕ) (g : Grid) (i : ℕ) (dt : ℚ) (grav : Vec2)
    (rand : RandSrc) (k : ℕ) (hgi : g.particles.get? i = some none) (hi : ¬ i = 0) :
    Grid.tickLoop (f + 1) g i dt grav rand k =
      Grid.tickLoop f g (i - 1) dt grav rand k := by
  rw [tickLoop_succ, tickStep_not_occupied g i dt grav rand k
    (fun p h => by rw [hgi] at h; exact Option.noConfusion (Option.some.inj h))]
  simp [hi]

theorem tickLoop_last_empty (f : ℕ) (g : Grid) (dt : ℚ) (grav : Vec2)
    (rand : RandSrc) (k : ℕ) (hg0 : g.particles.get? 0 = some none) :
    Grid.tickLoop (f + 1) g 0 dt grav rand k = ⟨g, k, []⟩ := by
  rw [tickLoop_succ, tickStep_not_occupied g 0 dt grav rand k
    (fun p h => by rw [hg0] at h; exact Option.noConfusion (Option.some.inj h))]
  simp

theorem g3_full (dt : ℚ) (rand : RandSrc) (hr : ∀ j, 0 ≤ rand j) :
    g3.update dt (0, 1) rand 0 =
      ⟨g3s, 5, [Event.proc 1 "a", Event.att 1 "a" true]⟩ := by
  rw [update_eq_tickLoop g3 dt (0, 1) rand 0 rfl (by norm_num [g3])]
  have h0 : ({ g3 with modifiedParticles := (∅ : Finset ℕ) } : Grid) = g3 := rfl
  rw [h0, show outerFuel g3 = 91 from rfl, show g3.particles.length - 1 = 8 from rfl]
  rw [show (91 : ℕ) = 90 + 1 from rfl, tickLoop_skip_empty 90 g3 8 dt (0, 1) rand 0
    rfl (by norm_num), show (8 : ℕ) - 1 = 7 from rfl]
  rw [show (90 : ℕ) = 89 + 1 from rfl, tickLoop_skip_empty 89 g3 7 dt (0, 1) rand 0
    rfl (by norm_num), show (7 : ℕ) - 1 = 6 from rfl]
  rw [show (89 : ℕ) = 88 + 1 from rfl, tickLoop_skip_empty 88 g3 6 dt (0, 1) rand 0
    rfl (by norm_num), show (6 : ℕ) - 1 = 5 from rfl]
  rw [show (88 : ℕ) = 87 + 1 from rfl, tickLoop_skip_empty 87 g3 5 dt (0, 1) rand 0
    rfl (by norm_num), show (5 : ℕ) - 1 = 4 from rfl]
  rw [show (87 : ℕ) = 86 + 1 from rfl, tickLoop_skip_empty 86 g3 4 dt (0, 1) rand 0
    rfl (by norm_num), show (4 : ℕ) - 1 = 3 from rfl]
  rw [show (86 : ℕ) = 85 + 1 from rfl, tickLoop_skip_empty 85 g3 3 dt (0, 1) rand 0
    rfl (by norm_num), show (3 : ℕ) - 1 = 2 from rfl]
  rw [show (85 : ℕ) = 84 + 1 from rfl, tickLoop_skip_empty 84 g3 2 dt (0, 1) rand 0
    rfl (by norm_num), show (2 : ℕ) - 1 = 1 from rfl]
  rw [show (84 : ℕ) = 83 + 1 from rfl, tickLoop_succ, g3_tickStep dt rand hr 0]
  norm_num
  rw [show (83 : ℕ) = 82 + 1 from rfl, tickLoop_skip_empty 82 g3s 3 dt (0, 1) rand 5
    rfl (by norm_num), show (3 : ℕ) - 1 = 2 from rfl]
  rw [show (82 : ℕ) = 81 + 1 from rfl, tickLoop_skip_empty 81 g3s 2 dt (0, 1) rand 5
    rfl (by norm_num), show (2 : ℕ) - 1 = 1 from rfl]
  rw [show (81 : ℕ) = 80 + 1 from rfl, tickLoop_skip_empty 80 g3s 1 dt (0, 1) rand 5
    rfl (by norm_num), show (1 : ℕ) - 1 = 0 from rfl]
  rw [show (80 : ℕ) = 79 + 1 from rfl, tickLoop_last_empty 79 g3s dt (0, 1) rand 5 rfl]
  exact ⟨rfl, rfl, rfl⟩

/-- C3: on the 3×3 grid `g3` past its first tick — a single resting
particle at index 1, all other cells empty — one `Grid.update` call with
gravity `(0, 1)` moves the particle to index 4 (with velocity `(0, 1)`,
i.e. the particle value `pA2`), empties cell 1, and produces
`modifiedParticles = {1, 4}`, for every outcome of the random source
(every draw of `Math.random()` is nonnegative). -/
theorem concrete_scenario_particle_falls (dt : ℚ) (rand : RandSrc)
    (hr : ∀ j, 0 ≤ rand j) :
    (g3.update dt (0, 1) rand 0).grid.particles.get? 4 = some (some pA2) ∧
    (g3.update dt (0, 1) rand 0).grid.particles.get? 1 = some none ∧
    (g3.update dt (0, 1) rand 0).grid.modifiedParticles = ({1, 4} : Finset ℕ) := by
  rw [g3_full dt rand hr]
  refine ⟨rfl, rfl, ?_⟩
  exact finset_eq_of_sort_eq (by with_unfolding_all rfl)

/-- C3 witness: the scenario evaluated at the all-zero outcome. -/
theorem concrete_scenario_particle_falls_witness :
    (∀ j, 0 ≤ rand0 j) ∧
    (g3.update 1 (0, 1) rand0 0).grid.modifiedParticles = ({1, 4} : Finset ℕ) :=
  ⟨fun _ => le_refl 0,
    (concrete_scenario_particle_falls 1 rand0 (fun _ => le_refl 0)).2.2⟩
